import Mathlib

/-!
Verification development for the `rs-ocr` repository.

The repository's own code is the single function `ocr` in `src/lib.rs`:

  pub fn ocr(bytes: &[u8]) -> String {
      let out = pdf_extract::extract_text_from_mem(&bytes).unwrap();
      String::from(out)
  }

We embed `ocr` shallowly, modelling the external library
`pdf_extract::extract_text_from_mem` as an explicit function parameter and
a Rust panic as `Option.none`.

The specification additionally describes a from-scratch PDF text-extraction
core (`extract_text : bytes -> Result<String, ExtractError>`).  That core is
not present in the repository; everything in the `Core` namespace below is
modelled from the spec, faithful to its words, and is marked as such.
-/

set_option maxRecDepth 10000

/- Bytes are modelled as plain natural numbers (`omega`-friendly);
well-formed byte buffers satisfy `validBytes` (every entry below 256). -/

/-- Well-formedness of a byte buffer: every entry is an actual byte value. -/
def validBytes (bs : List Nat) : Bool :=
  bs.all (fun b => b < 256)

/-! ## The wrapper `ocr` (embedded from `src/lib.rs`) -/

/-- Errors of the external `pdf_extract` library.  The wrapper never inspects
them; one opaque-to-the-wrapper constructor with a message suffices. -/
inductive LibError where
  | mk (msg : String)
deriving DecidableEq, Repr

/-- The type of the external library function
`pdf_extract::extract_text_from_mem : &[u8] -> Result<String, _>`,
modelled as a fixed (pure) function of the input bytes. -/
abbrev LibFun := List Nat → Except LibError String

/-- Embedding of `ocr` from `src/lib.rs`.  The body forwards the byte buffer
to the library, `.unwrap()`s the result (a panic on the error branch is
modelled as `Option.none`), and returns `String::from(out)`, which is the
identity on an owned `String`. -/
def ocr (lib : LibFun) (bytes : List Nat) : Option String :=
  match lib bytes with
  | .ok out => some (String.mk out.data)
  | .error _ => none

/-- State-passing embedding of `ocr` for the frame property: the input
buffer is taken by shared reference `&[u8]`; the body only reads it (the
single read feeds the library call), so the embedding threads the buffer
as explicit state with no write. -/
def ocrState (lib : LibFun) : StateM (List Nat) (Option String) := do
  let b ← get
  pure (ocr lib b)

/-! ## Core engine, modelled from the spec

Everything from here to the end of the definitions is **modelled from the
spec** (sections 3–7): the repository contains no implementation of the
core, only the wrapper above. -/

namespace Core

/-- Modelled from the spec: the error taxonomy of §7 (the embedding-layer
`Timeout` included). -/
inductive ExtractError where
  | truncatedInput
  | malformedObject
  | xrefError
  | referenceCycle
  | unsupportedFilter (name : String)
  | decodeError
  | emptyDocument
  | timeout
deriving DecidableEq, Repr, Inhabited

/-- Modelled from the spec: the `PdfObject` tagged union of §3.  A PDF real
is a decimal literal, kept as mantissa and decimal-place count. -/
inductive PdfObject where
  | null
  | boolean (b : Bool)
  | integer (i : Int)
  | real (mantissa : Int) (scale : Nat)
  | string (bytes : List Nat)
  | name (n : String)
  | array (elems : List PdfObject)
  | dict (entries : List (String × PdfObject))
  | stream (entries : List (String × PdfObject)) (raw : List Nat)
  | ref (num : Nat) (gen : Nat)
deriving Inhabited, Repr

/-- Dictionary lookup by key (first binding wins). -/
def dictGet (entries : List (String × PdfObject)) (key : String) : Option PdfObject :=
  match entries.find? (fun e => e.1 == key) with
  | some e => some e.2
  | none => none

/-! ### Reference resolution (spec §4.3)

Modelled from the spec: `resolve` dereferences a `Reference` transitively
with a bounded recursion depth guarding against reference cycles, failing
with `ReferenceCycle` past a fixed depth of 32.  The object store is
abstracted as a partial map from object numbers to objects. -/

/-- An object store: object number to stored object. -/
abbrev ObjStore := Nat → Option PdfObject

/-- Modelled from the spec (§4.3): bounded transitive dereference.  A
missing target resolves to `null` (undefined indirect references behave as
the null object); exhausting the depth budget fails with `ReferenceCycle`. -/
def resolveRef (fuel : Nat) (store : ObjStore) : PdfObject → Except ExtractError PdfObject
  | .ref num _ =>
    match fuel with
    | 0 => .error .referenceCycle
    | fuel + 1 =>
      match store num with
      | none => .ok .null
      | some o => resolveRef fuel store o
  | o => .ok o

/-- The fixed cycle bound of spec §4.3. -/
def cycleBound : Nat := 32

/-- Resolution at the spec's fixed depth bound. -/
def resolve (store : ObjStore) (o : PdfObject) : Except ExtractError PdfObject :=
  resolveRef cycleBound store o

/-- `chainAll store o d` holds when, following indirect references from `o`,
the first `d` steps each land on yet another present indirect reference:
a reference chain of depth at least `d`. -/
def chainAll (store : ObjStore) (o : PdfObject) : Nat → Bool
  | 0 => true
  | d + 1 =>
    match o with
    | .ref num _ =>
      match store num with
      | some o2 => chainAll store o2 d
      | none => false
    | _ => false

/-! ### Stream filters (spec §4.4)

Modelled from the spec: `decode(dictionary, raw_bytes)` applies the
declared filters in order; unknown filter names fail with
`UnsupportedFilter`.  The spec's round-trip property (§8) also needs the
corresponding encoders, so each supported filter comes as an
encoder/decoder pair.  Predictor unfiltering is skipped, as the spec
directs for a text-only core. -/

/-- PDF whitespace bytes (NUL, HT, LF, FF, CR, SP). -/
def isWhite (b : Nat) : Bool :=
  b == 0 || b == 9 || b == 10 || b == 12 || b == 13 || b == 32

/-- Uppercase hexadecimal digit character for a value below 16. -/
def hexDigitChar (v : Nat) : Nat :=
  if v < 10 then 48 + v else 55 + v

/-- Value of a hexadecimal digit character (either case); `none` otherwise. -/
def hexVal (b : Nat) : Option Nat :=
  if 48 ≤ b && b ≤ 57 then some (b - 48)
  else if 65 ≤ b && b ≤ 70 then some (b - 55)
  else if 97 ≤ b && b ≤ 102 then some (b - 87)
  else none

/-- Modelled from the spec: ASCII-hex encoder — two uppercase hex digits
per byte, terminated by the EOD marker `>`. -/
def asciiHexEncode (bs : List Nat) : List Nat :=
  (bs.map (fun b => [hexDigitChar (b / 16), hexDigitChar (b % 16)])).flatten ++ [62]

/-- Worker for `asciiHexDecode`: `pending` holds a high nibble waiting for
its partner.  Whitespace is skipped; `>` is the EOD marker (an odd final
digit is padded with zero); a missing marker is `TruncatedInput`. -/
def asciiHexDecodeAux : List Nat → Option Nat → Except ExtractError (List Nat)
  | [], _ => .error .truncatedInput
  | b :: rest, pending =>
    if b == 62 then
      match pending with
      | none => .ok []
      | some h => .ok [h * 16]
    else if isWhite b then
      asciiHexDecodeAux rest pending
    else
      match hexVal b with
      | none => .error .decodeError
      | some v =>
        match pending with
        | none => asciiHexDecodeAux rest (some v)
        | some h =>
          match asciiHexDecodeAux rest none with
          | .ok tl => .ok ((h * 16 + v) :: tl)
          | .error e => .error e

/-- Modelled from the spec: ASCII-hex decoder. -/
def asciiHexDecode (bs : List Nat) : Except ExtractError (List Nat) :=
  asciiHexDecodeAux bs none

/-- Base-85 digit sequence (five digits, most significant first) of a
32-bit group value, already offset into ASCII by 33. -/
def a85Group (n : Nat) : List Nat :=
  [33 + n / 52200625, 33 + n / 614125 % 85, 33 + n / 7225 % 85,
   33 + n / 85 % 85, 33 + n % 85]

/-- The 32-bit group value of four bytes (big-endian). -/
def a85Value (b0 b1 b2 b3 : Nat) : Nat :=
  b0 * 16777216 + b1 * 65536 + b2 * 256 + b3

/-- The four big-endian bytes of a 32-bit group value. -/
def a85GroupBytes (n : Nat) : List Nat :=
  [n / 16777216 % 256, n / 65536 % 256, n / 256 % 256, n % 256]

/-- Modelled from the spec: ASCII-85 encoder.  Full 4-byte groups become
five base-85 digits; a final partial group of `k` bytes is zero-padded and
contributes its first `k + 1` digits; the stream ends with `~>`.  (The
all-zero `z` shortcut is accepted by the decoder but never emitted.) -/
def a85Encode : List Nat → List Nat
  | [] => [126, 62]
  | [b0] =>
    let n := a85Value b0 0 0 0
    [33 + n / 52200625, 33 + n / 614125 % 85, 126, 62]
  | [b0, b1] =>
    let n := a85Value b0 b1 0 0
    [33 + n / 52200625, 33 + n / 614125 % 85, 33 + n / 7225 % 85, 126, 62]
  | [b0, b1, b2] =>
    let n := a85Value b0 b1 b2 0
    [33 + n / 52200625, 33 + n / 614125 % 85, 33 + n / 7225 % 85, 33 + n / 85 % 85, 126, 62]
  | b0 :: b1 :: b2 :: b3 :: rest => a85Group (a85Value b0 b1 b2 b3) ++ a85Encode rest

/-- Recompose a full five-digit base-85 group. -/
def a85Recompose (ds : List Nat) : Nat :=
  ds.foldl (fun acc d => acc * 85 + d) 0

/-- The `~` byte was seen: expect the `>` of the EOD marker and flush the
leftover group — a final partial group of `m` digits (`2 ≤ m ≤ 4`) is
padded with `u` (84) and contributes `m - 1` bytes. -/
def a85Eod : List Nat → List Nat → Except ExtractError (List Nat)
  | rest, grp =>
    match rest, grp with
    | 62 :: _, [] => .ok []
    | 62 :: _, [_] => .error .decodeError
    | 62 :: _, ds =>
      let padded := ds ++ List.replicate (5 - ds.length) 84
      let n := a85Recompose padded
      if n < 4294967296 then .ok ((a85GroupBytes n).take (ds.length - 1))
      else .error .decodeError
    | _, _ => .error .decodeError

/-- Worker for `a85Decode`: `grp` accumulates up to four digit values of the
current group; `~>` is the EOD marker. -/
def a85DecodeAux : List Nat → List Nat → Except ExtractError (List Nat)
  | [], _ => .error .truncatedInput
  | b :: rest, grp =>
    if b == 126 then
      a85Eod rest grp
    else if isWhite b then
      a85DecodeAux rest grp
    else if b == 122 && grp.isEmpty then
      match a85DecodeAux rest [] with
      | .ok tl => .ok (0 :: 0 :: 0 :: 0 :: tl)
      | .error e => .error e
    else if 33 ≤ b && b ≤ 117 then
      let grp2 := grp ++ [b - 33]
      if grp2.length == 5 then
        let n := a85Recompose grp2
        if n < 4294967296 then
          match a85DecodeAux rest [] with
          | .ok tl => .ok (a85GroupBytes n ++ tl)
          | .error e => .error e
        else .error .decodeError
      else a85DecodeAux rest grp2
    else .error .decodeError

/-- Modelled from the spec: ASCII-85 decoder. -/
def a85Decode (bs : List Nat) : Except ExtractError (List Nat) :=
  a85DecodeAux bs []

/-- Modelled from the spec: byte-level model of the stored-block mode of a
deflate-style compressor.  Each block is `[final, len_lo, len_hi, nlen_lo,
nlen_hi]` followed by `len` literal bytes, `nlen` being the one's
complement of `len`; non-final blocks carry 65535 bytes. -/
def flateEncode (bs : List Nat) : List Nat :=
  if bs.length ≤ 65535 then
    1 :: bs.length % 256 :: bs.length / 256 ::
      (255 - bs.length % 256) :: (255 - bs.length / 256) :: bs
  else
    0 :: 255 :: 255 :: 0 :: 0 :: (bs.take 65535 ++ flateEncode (bs.drop 65535))
termination_by bs.length
decreasing_by simp [List.length_drop]; omega

/-- Modelled from the spec: stored-block decoder matching `flateEncode`.
A bad length complement or block type is `DecodeError`; missing bytes are
`TruncatedInput`; data past the final block is `DecodeError`. -/
def flateDecode : List Nat → Except ExtractError (List Nat)
  | bf :: lo :: hi :: nlo :: nhi :: rest =>
    if nlo = 255 - lo ∧ nhi = 255 - hi ∧ lo < 256 ∧ hi < 256 then
      if lo + 256 * hi ≤ rest.length then
        if bf = 1 then
          if rest.length = lo + 256 * hi then .ok rest else .error .decodeError
        else if bf = 0 then
          match flateDecode (rest.drop (lo + 256 * hi)) with
          | .ok tl => .ok (rest.take (lo + 256 * hi) ++ tl)
          | .error e => .error e
        else .error .decodeError
      else .error .truncatedInput
    else .error .decodeError
  | _ => .error .truncatedInput
termination_by bs => bs.length
decreasing_by simp [List.length_drop]; omega

/-- Modelled from the spec: run-length decoder (`RunLengthDecode`).  A
length byte below 128 copies the next `length + 1` bytes; above 128 it
repeats the next byte `257 - length` times; 128 is EOD. -/
def runLengthDecode : List Nat → Except ExtractError (List Nat)
  | [] => .error .truncatedInput
  | l :: rest =>
    if l = 128 then .ok []
    else if l < 128 then
      if l + 1 ≤ rest.length then
        match runLengthDecode (rest.drop (l + 1)) with
        | .ok tl => .ok (rest.take (l + 1) ++ tl)
        | .error e => .error e
      else .error .truncatedInput
    else
      match rest with
      | [] => .error .truncatedInput
      | b :: rest2 =>
        match runLengthDecode rest2 with
        | .ok tl => .ok (List.replicate (257 - l) b ++ tl)
        | .error e => .error e
termination_by bs => bs.length
decreasing_by all_goals simp [List.length_drop]; omega

/-- Modelled from the spec: apply a single named filter; unknown names fail
with `UnsupportedFilter` (the unit's text is then omitted upstream, not the
whole extraction aborted). -/
def streamDecodeOne (fname : String) (raw : List Nat) : Except ExtractError (List Nat) :=
  if fname = "FlateDecode" then flateDecode raw
  else if fname = "ASCIIHexDecode" then asciiHexDecode raw
  else if fname = "ASCII85Decode" then a85Decode raw
  else if fname = "RunLengthDecode" then runLengthDecode raw
  else .error (.unsupportedFilter fname)

/-- Modelled from the spec: apply a declared filter chain in order. -/
def streamDecodeChain : List String → List Nat → Except ExtractError (List Nat)
  | [], raw => .ok raw
  | f :: fs, raw =>
    match streamDecodeOne f raw with
    | .ok mid => streamDecodeChain fs mid
    | .error e => .error e

/-! ### ByteReader and ObjectParser (spec §4.1, §4.2)

Modelled from the spec.  The ByteReader is embedded as suffix passing:
every parser consumes a `List Nat` and returns the unread remainder, and
running off the end of the buffer is the recoverable `TruncatedInput`,
never a program fault. -/

/-- PDF delimiter bytes `( ) < > [ ] { \x7b \x7d } / %`. -/
def isDelim (b : Nat) : Bool :=
  b == 40 || b == 41 || b == 60 || b == 62 || b == 91 || b == 93 ||
  b == 123 || b == 125 || b == 47 || b == 37

/-- A regular byte: neither whitespace nor a delimiter. -/
def isRegular (b : Nat) : Bool :=
  !(isWhite b) && !(isDelim b)

/-- A decimal digit byte. -/
def isDigit (b : Nat) : Bool :=
  48 ≤ b && b ≤ 57

/-- The bytes of an ASCII keyword. -/
def strBytes (s : String) : List Nat :=
  s.data.map Char.toNat

/-- Bytes (assumed valid Unicode scalars) back to a string. -/
def bytesToString (bs : List Nat) : String :=
  String.mk (bs.map Char.ofNat)

/-- Skip whitespace and `%` comments, in comment-skipping mode while the
flag is set. -/
def skipWsAux : List Nat → Bool → List Nat
  | [], _ => []
  | b :: r, true => if b == 10 || b == 13 then skipWsAux r false else skipWsAux r true
  | b :: r, false =>
    if isWhite b then skipWsAux r false
    else if b == 37 then skipWsAux r true
    else b :: r

/-- Skip whitespace and comments (spec §4.2 tokenization). -/
def skipWs (bs : List Nat) : List Nat :=
  skipWsAux bs false

/-- Match a keyword at the head of the input, returning the remainder. -/
def matchKw (kw : List Nat) (bs : List Nat) : Option (List Nat) :=
  if kw.isPrefixOf bs then some (bs.drop kw.length) else none

/-- Take a maximal run of decimal digits (as digit values). -/
def takeDigits : List Nat → (List Nat × List Nat)
  | [] => ([], [])
  | b :: r =>
    if isDigit b then
      match takeDigits r with
      | (ds, rest) => ((b - 48) :: ds, rest)
    else ([], b :: r)

/-- Digit values to a natural number (most significant first). -/
def digitsToNat (ds : List Nat) : Nat :=
  ds.foldl (fun a d => a * 10 + d) 0

/-- First index at which a pattern occurs in the input. -/
def findPat (pat : List Nat) : List Nat → Option Nat
  | [] => if pat.isEmpty then some 0 else none
  | b :: r =>
    if pat.isPrefixOf (b :: r) then some 0
    else (findPat pat r).map (· + 1)

/-- Worker for `findLastPat`, carrying the offset of the searched suffix and
the best match so far. -/
def findLastPatAux (pat : List Nat) : Nat → List Nat → Nat → Option Nat → Option Nat
  | 0, _, _, best => best
  | fuel + 1, bs, base, best =>
    match findPat pat bs with
    | none => best
    | some i => findLastPatAux pat fuel (bs.drop (i + 1)) (base + i + 1) (some (base + i))

/-- Last index at which a pattern occurs in the input. -/
def findLastPat (pat : List Nat) (bs : List Nat) : Option Nat :=
  findLastPatAux pat (bs.length + 1) bs 0 none

/-- Prefix a byte onto the payload of a string-parser result. -/
def consFirst (c : Nat) :
    Except ExtractError (List Nat × List Nat) → Except ExtractError (List Nat × List Nat)
  | .ok (s, rem) => .ok (c :: s, rem)
  | .error e => .error e

/-- Modelled from the spec: literal-string body parser (after the opening
parenthesis), with escape handling and balanced-parenthesis tracking;
`depth` counts unescaped open parentheses. -/
def parseLitStringAux : Nat → List Nat → Nat → Except ExtractError (List Nat × List Nat)
  | 0, _, _ => .error .truncatedInput
  | _ + 1, [], _ => .error .truncatedInput
  | _ + 1, [92], _ => .error .truncatedInput
  | fuel + 1, 92 :: e :: r2, depth =>
    if e == 110 then consFirst 10 (parseLitStringAux fuel r2 depth)
    else if e == 114 then consFirst 13 (parseLitStringAux fuel r2 depth)
    else if e == 116 then consFirst 9 (parseLitStringAux fuel r2 depth)
    else if e == 98 then consFirst 8 (parseLitStringAux fuel r2 depth)
    else if e == 102 then consFirst 12 (parseLitStringAux fuel r2 depth)
    else if e == 10 then parseLitStringAux fuel r2 depth
    else if e == 13 then
      match r2 with
      | 10 :: r3 => parseLitStringAux fuel r3 depth
      | _ => parseLitStringAux fuel r2 depth
    else if 48 ≤ e && e ≤ 55 then
      match r2 with
      | o2 :: r3 =>
        if 48 ≤ o2 && o2 ≤ 55 then
          match r3 with
          | o3 :: r4 =>
            if 48 ≤ o3 && o3 ≤ 55 then
              consFirst (((e - 48) * 64 + (o2 - 48) * 8 + (o3 - 48)) % 256)
                (parseLitStringAux fuel r4 depth)
            else consFirst ((e - 48) * 8 + (o2 - 48)) (parseLitStringAux fuel r3 depth)
          | [] => consFirst ((e - 48) * 8 + (o2 - 48)) (parseLitStringAux fuel r3 depth)
        else consFirst (e - 48) (parseLitStringAux fuel r2 depth)
      | [] => consFirst (e - 48) (parseLitStringAux fuel r2 depth)
    else consFirst e (parseLitStringAux fuel r2 depth)
  | fuel + 1, 40 :: rest, depth => consFirst 40 (parseLitStringAux fuel rest (depth + 1))
  | fuel + 1, 41 :: rest, depth =>
    match depth with
    | 0 => .ok ([], rest)
    | d + 1 => consFirst 41 (parseLitStringAux fuel rest d)
  | fuel + 1, c :: rest, depth => consFirst c (parseLitStringAux fuel rest depth)

/-- Modelled from the spec: hexadecimal-string body parser (after `<`),
whitespace allowed, an odd final digit padded with zero. -/
def parseHexStringAux : List Nat → Option Nat → Except ExtractError (List Nat × List Nat)
  | [], _ => .error .truncatedInput
  | b :: rest, pending =>
    if b == 62 then
      match pending with
      | none => .ok ([], rest)
      | some h => .ok ([h * 16], rest)
    else if isWhite b then parseHexStringAux rest pending
    else
      match hexVal b with
      | none => .error .malformedObject
      | some v =>
        match pending with
        | none => parseHexStringAux rest (some v)
        | some h => consFirst (h * 16 + v) (parseHexStringAux rest none)

/-- Modelled from the spec: name-body parser (after `/`), regular
characters with `#xx` hex-escape expansion (an invalid escape keeps the
`#` literally). -/
def parseNameChars : List Nat → (List Nat × List Nat)
  | [] => ([], [])
  | 35 :: h1 :: h2 :: r =>
    match hexVal h1, hexVal h2 with
    | some v1, some v2 =>
      match parseNameChars r with
      | (cs, rest) => ((v1 * 16 + v2) :: cs, rest)
    | _, _ =>
      match parseNameChars (h1 :: h2 :: r) with
      | (cs, rest) => (35 :: cs, rest)
  | b :: r =>
    if isRegular b then
      match parseNameChars r with
      | (cs, rest) => (b :: cs, rest)
    else ([], b :: r)

/-- Modelled from the spec: numeric literal — optional sign, digits, an
optional decimal point (integer or real). -/
def parseNumber (bs : List Nat) : Except ExtractError (PdfObject × List Nat) :=
  let (neg, afterSign) :=
    match bs with
    | 43 :: r => (false, r)
    | 45 :: r => (true, r)
    | _ => (false, bs)
  match takeDigits afterSign with
  | (ds, r1) =>
    match r1 with
    | 46 :: r2 =>
      match takeDigits r2 with
      | (fs, r3) =>
        if ds.isEmpty && fs.isEmpty then .error .malformedObject
        else
          let m : Int := Int.ofNat (digitsToNat (ds ++ fs))
          .ok (.real (if neg then -m else m) fs.length, r3)
    | _ =>
      if ds.isEmpty then .error .malformedObject
      else
        let m : Int := Int.ofNat (digitsToNat ds)
        .ok (.integer (if neg then -m else m), r1)

/-- After an integer, try the `gen R` continuation that turns it into an
indirect reference; the byte after `R` must not be regular (so content
operators such as `RG` are not mistaken for references). -/
def tryRefSuffix (num : Nat) (bs : List Nat) : Option (PdfObject × List Nat) :=
  match takeDigits (skipWs bs) with
  | ([], _) => none
  | (gs, r2) =>
    match skipWs r2 with
    | 82 :: r3 =>
      match r3 with
      | [] => some (.ref num (digitsToNat gs), [])
      | c :: _ => if isRegular c then none else some (.ref num (digitsToNat gs), r3)
    | _ => none

/-- Modelled from the spec (§4.2): after a dictionary, a `stream` keyword
starts a stream object.  The declared `/Length` is consulted when it is a
direct integer consistent with an `endstream` keyword after the data;
otherwise (an indirect `/Length` included) the parser falls back to
scanning for the literal `endstream`, the spec's malformed-PDF recovery
heuristic.  The scan path trims one trailing end-of-line sequence. -/
def parseStreamSuffix (entries : List (String × PdfObject)) (bs : List Nat) :
    Except ExtractError (PdfObject × List Nat) :=
  match matchKw (strBytes "stream") (skipWs bs) with
  | none => .ok (.dict entries, bs)
  | some afterKw =>
    let body :=
      match afterKw with
      | 13 :: 10 :: r => r
      | 10 :: r => r
      | r => r
    let byLength :=
      match dictGet entries "Length" with
      | some (.integer n) =>
        if 0 ≤ n ∧ n.toNat ≤ body.length then
          let raw := body.take n.toNat
          let after := skipWs (body.drop n.toNat)
          match matchKw (strBytes "endstream") after with
          | some rest => some (raw, rest)
          | none => none
        else none
      | _ => none
    match byLength with
    | some (raw, rest) => .ok (.stream entries raw, rest)
    | none =>
      match findPat (strBytes "endstream") body with
      | none => .error .truncatedInput
      | some i =>
        let rawFull := body.take i
        let raw :=
          match rawFull.reverse with
          | 10 :: 13 :: rr => rr.reverse
          | 10 :: rr => rr.reverse
          | 13 :: rr => rr.reverse
          | _ => rawFull
        .ok (.stream entries raw, body.drop (i + 9))

/-- Parsing mode: one object, array elements, or dictionary entries.  The
three producers of spec §4.2 are one fuel-indexed function so that the
whole parser is structurally recursive (and hence computable by
evaluation); the modes' results are carried by `ParseRes`. -/
inductive ParseMode where
  | one
  | arr
  | dct

/-- Result of a `ParseMode` run. -/
inductive ParseRes where
  | obj (o : PdfObject)
  | elems (l : List PdfObject)
  | entries (l : List (String × PdfObject))

/-- Modelled from the spec (§4.2): `parse_object` together with its array
and dictionary loops, dispatched on `ParseMode`.  The fuel bounds the
recursion; callers pass a budget derived from the input length, so
exhausting it means a malformed object, not divergence. -/
def parseMain (fuel : Nat) (mode : ParseMode) (bs : List Nat) :
    Except ExtractError (ParseRes × List Nat) :=
  match fuel with
  | 0 => .error .malformedObject
  | fuel + 1 =>
    match mode with
    | .arr =>
      match skipWs bs with
      | [] => .error .truncatedInput
      | 93 :: r => .ok (.elems [], r)
      | s =>
        match parseMain fuel .one s with
        | .error e => .error e
        | .ok (.obj o, rest) =>
          match parseMain fuel .arr rest with
          | .ok (.elems elems, rest2) => .ok (.elems (o :: elems), rest2)
          | .ok _ => .error .malformedObject
          | .error e => .error e
        | .ok _ => .error .malformedObject
    | .dct =>
      match skipWs bs with
      | [] => .error .truncatedInput
      | 62 :: 62 :: r => .ok (.entries [], r)
      | 47 :: r =>
        match parseNameChars r with
        | (cs, rest) =>
          match parseMain fuel .one rest with
          | .error e => .error e
          | .ok (.obj v, rest2) =>
            match parseMain fuel .dct rest2 with
            | .ok (.entries entries, rest3) =>
              .ok (.entries ((bytesToString cs, v) :: entries), rest3)
            | .ok _ => .error .malformedObject
            | .error e => .error e
          | .ok _ => .error .malformedObject
      | _ => .error .malformedObject
    | .one =>
      match skipWs bs with
      | [] => .error .truncatedInput
      | 47 :: r =>
        match parseNameChars r with
        | (cs, rest) => .ok (.obj (.name (bytesToString cs)), rest)
      | 40 :: r =>
        match parseLitStringAux (r.length + 1) r 0 with
        | .ok (s, rest) => .ok (.obj (.string s), rest)
        | .error e => .error e
      | 60 :: 60 :: r =>
        match parseMain fuel .dct r with
        | .ok (.entries entries, rest) =>
          match parseStreamSuffix entries rest with
          | .ok (o, rest2) => .ok (.obj o, rest2)
          | .error e => .error e
        | .ok _ => .error .malformedObject
        | .error e => .error e
      | 60 :: r =>
        match parseHexStringAux r none with
        | .ok (s, rest) => .ok (.obj (.string s), rest)
        | .error e => .error e
      | 91 :: r =>
        match parseMain fuel .arr r with
        | .ok (.elems elems, rest) => .ok (.obj (.array elems), rest)
        | .ok _ => .error .malformedObject
        | .error e => .error e
      | s =>
        match matchKw (strBytes "true") s with
        | some rest => .ok (.obj (.boolean true), rest)
        | none =>
          match matchKw (strBytes "false") s with
          | some rest => .ok (.obj (.boolean false), rest)
          | none =>
            match matchKw (strBytes "null") s with
            | some rest => .ok (.obj .null, rest)
            | none =>
              match parseNumber s with
              | .error e => .error e
              | .ok (o, rest) =>
                match o with
                | .integer i =>
                  if i < 0 then .ok (.obj o, rest)
                  else
                    match tryRefSuffix i.toNat rest with
                    | some (r, rest2) => .ok (.obj r, rest2)
                    | none => .ok (.obj o, rest)
                | _ => .ok (.obj o, rest)

/-- Modelled from the spec (§4.2): `parse_object(reader)`. -/
def parseObject (fuel : Nat) (bs : List Nat) : Except ExtractError (PdfObject × List Nat) :=
  match parseMain fuel .one bs with
  | .ok (.obj o, rest) => .ok (o, rest)
  | .ok _ => .error .malformedObject
  | .error e => .error e

/-- Parser fuel budget for a given input. -/
def parseFuel (bs : List Nat) : Nat :=
  2 * bs.length + 16

/-- Modelled from the spec: parse the indirect object `num gen obj ...
endobj` starting at a byte offset (a missing `endobj` is tolerated). -/
def parseIndirectAt (bytes : List Nat) (off : Nat) : Except ExtractError PdfObject :=
  let s0 := skipWs (bytes.drop off)
  match takeDigits s0 with
  | ([], _) => .error .malformedObject
  | (_, r1) =>
    match takeDigits (skipWs r1) with
    | ([], _) => .error .malformedObject
    | (_, r2) =>
      match matchKw (strBytes "obj") (skipWs r2) with
      | none => .error .malformedObject
      | some r3 =>
        match parseObject (parseFuel r3) r3 with
        | .error e => .error e
        | .ok (o, _) => .ok o

/-! ### XrefResolver (spec §4.3)

Modelled from the spec: locate the trailer via the `startxref` offset,
parse the classic cross-reference table there, follow `/Prev` chains with
newer entries winning, and on any failure (a compressed cross-reference
stream included) fall back to a linear scan for `N G obj` patterns — the
spec's dominant real-world recovery path. -/

/-- An object-number → byte-offset index together with the merged trailer
dictionary (newest bindings first, so lookups prefer the newest). -/
structure XrefData where
  entries : List (Nat × Nat)
  trailer : List (String × PdfObject)
deriving Inhabited, Repr

/-- Look up the byte offset recorded for an object number (newest wins). -/
def lookupXref (xd : XrefData) (num : Nat) : Option Nat :=
  (xd.entries.find? (fun e => e.1 == num)).map (fun e => e.2)

/-- Parse `count` classic xref entries for object numbers starting at
`start`, keeping in-use (`n`) entries and skipping free (`f`) ones. -/
def parseXrefEntry (count : Nat) (start : Nat) (bs : List Nat) :
    Except ExtractError (List (Nat × Nat) × List Nat) :=
  match count with
  | 0 => .ok ([], bs)
  | c + 1 =>
    match takeDigits (skipWs bs) with
    | ([], _) => .error .xrefError
    | (offds, r1) =>
      match takeDigits (skipWs r1) with
      | ([], _) => .error .xrefError
      | (_, r2) =>
        match skipWs r2 with
        | 110 :: r3 =>
          match parseXrefEntry c (start + 1) r3 with
          | .ok (es, rest) => .ok ((start, digitsToNat offds) :: es, rest)
          | .error e => .error e
        | 102 :: r3 => parseXrefEntry c (start + 1) r3
        | _ => .error .xrefError

/-- Parse the subsections of a classic xref table until the `trailer`
keyword. -/
def parseXrefSections (fuel : Nat) (bs : List Nat) :
    Except ExtractError (List (Nat × Nat) × List Nat) :=
  match fuel with
  | 0 => .error .xrefError
  | fuel + 1 =>
    let s := skipWs bs
    if (strBytes "trailer").isPrefixOf s then .ok ([], s)
    else
      match takeDigits s with
      | ([], _) => .error .xrefError
      | (sds, r1) =>
        match takeDigits (skipWs r1) with
        | ([], _) => .error .xrefError
        | (cds, r2) =>
          match parseXrefEntry (digitsToNat cds) (digitsToNat sds) r2 with
          | .error e => .error e
          | .ok (es, r3) =>
            match parseXrefSections fuel r3 with
            | .ok (es2, rest) => .ok (es ++ es2, rest)
            | .error e => .error e

/-- Parse the `trailer` keyword and its dictionary. -/
def parseTrailerAfter (bs : List Nat) :
    Except ExtractError (List (String × PdfObject)) :=
  match matchKw (strBytes "trailer") (skipWs bs) with
  | none => .error .xrefError
  | some r =>
    match parseObject (parseFuel r) r with
    | .ok (.dict d, _) => .ok d
    | _ => .error .xrefError

/-- Parse one classic xref section (table plus trailer) at an offset. -/
def parseXrefAt (bytes : List Nat) (off : Nat) :
    Except ExtractError (List (Nat × Nat) × List (String × PdfObject)) :=
  match matchKw (strBytes "xref") (skipWs (bytes.drop off)) with
  | none => .error .xrefError
  | some r =>
    match parseXrefSections (r.length + 1) r with
    | .error e => .error e
    | .ok (es, r2) =>
      match parseTrailerAfter r2 with
      | .ok t => .ok (es, t)
      | .error e => .error e

/-- Follow a `/Prev` chain of xref sections, newest first; a broken `/Prev`
target degrades to the sections already gathered. -/
def buildXrefFrom (fuel : Nat) (bytes : List Nat) (off : Nat) :
    Except ExtractError XrefData :=
  match fuel with
  | 0 => .error .xrefError
  | fuel + 1 =>
    match parseXrefAt bytes off with
    | .error e => .error e
    | .ok (es, t) =>
      match dictGet t "Prev" with
      | some (.integer p) =>
        if 0 ≤ p then
          match buildXrefFrom fuel bytes p.toNat with
          | .ok older => .ok ⟨es ++ older.entries, t ++ older.trailer⟩
          | .error _ => .ok ⟨es, t⟩
        else .ok ⟨es, t⟩
      | _ => .ok ⟨es, t⟩

/-- The byte offset declared after the last `startxref` keyword. -/
def parseStartxref (bytes : List Nat) : Option Nat :=
  match findLastPat (strBytes "startxref") bytes with
  | none => none
  | some i =>
    match takeDigits (skipWs (bytes.drop (i + 9))) with
    | ([], _) => none
    | (ds, _) => some (digitsToNat ds)

/-- Does this suffix begin with an `N G obj` indirect-object header
(whitespace-separated, `obj` not running into a longer keyword)? -/
def matchObjHeaderAt (bs : List Nat) : Option Nat :=
  match takeDigits bs with
  | ([], _) => none
  | (ds, r1) =>
    match r1 with
    | [] => none
    | w :: _ =>
      if isWhite w then
        match takeDigits (skipWs r1) with
        | ([], _) => none
        | (_, r2) =>
          match r2 with
          | [] => none
          | w2 :: _ =>
            if isWhite w2 then
              match matchKw (strBytes "obj") (skipWs r2) with
              | some [] => some (digitsToNat ds)
              | some (c :: _) => if isRegular c then none else some (digitsToNat ds)
              | none => none
            else none
      else none

/-- Single pass of the object scan: walk the suffixes, tracking the
current offset and whether the previous byte was a digit. -/
def scanObjAux : List Nat → Nat → Bool → List (Nat × Nat)
  | [], _, _ => []
  | b :: rest, i, prevDigit =>
    if prevDigit then scanObjAux rest (i + 1) (isDigit b)
    else
      match matchObjHeaderAt (b :: rest) with
      | some n => (n, i) :: scanObjAux rest (i + 1) (isDigit b)
      | none => scanObjAux rest (i + 1) (isDigit b)

/-- Modelled from the spec: best-effort linear scan for `N G obj` headers
across the whole buffer (a match must not start in the middle of a digit
run).  Offsets are listed in file order. -/
def scanObjOffsets (bytes : List Nat) : List (Nat × Nat) :=
  scanObjAux bytes 0 false

/-- In the scan fallback, rebuild a trailer: prefer the dictionary after
the last `trailer` keyword; otherwise point `/Root` at a scanned object
whose dictionary is `/Type /Catalog`; with neither, the catalog is
unlocatable — a fatal structural failure. -/
def fallbackTrailer (bytes : List Nat) (entries : List (Nat × Nat)) :
    Except ExtractError (List (String × PdfObject)) :=
  match findLastPat (strBytes "trailer") bytes with
  | some i =>
    match parseObject (parseFuel (bytes.drop (i + 7))) (bytes.drop (i + 7)) with
    | .ok (.dict d, _) => .ok d
    | _ => .error .xrefError
  | none =>
    match entries.find? (fun e =>
        match parseIndirectAt bytes e.2 with
        | .ok (.dict d) =>
          match dictGet d "Type" with
          | some (.name t) => t == "Catalog"
          | _ => false
        | _ => false) with
    | some e => .ok [("Root", .ref e.1 0)]
    | none => .error .xrefError

/-- Modelled from the spec: `build(bytes)`.  The `startxref` route is
tried first; a missing, unparsable, or catalog-less result falls back to
the linear scan (newest occurrence of an object number winning). -/
def buildXref (bytes : List Nat) : Except ExtractError XrefData :=
  let scanned := (scanObjOffsets bytes).reverse
  let fallback :=
    if scanned.isEmpty then Except.error ExtractError.xrefError
    else
      match fallbackTrailer bytes scanned with
      | .ok t => .ok (⟨scanned, t⟩ : XrefData)
      | .error e => .error e
  match parseStartxref bytes with
  | none => fallback
  | some off =>
    match buildXrefFrom 32 bytes off with
    | .ok xd => if (dictGet xd.trailer "Root").isSome then .ok xd else fallback
    | .error _ => fallback

/-! ### Document context and on-demand resolution -/

/-- The shared read-only context of one extraction: the whole input buffer
plus the xref index built from it. -/
structure DocCtx where
  bytes : List Nat
  xd : XrefData
deriving Inhabited

/-- The object store realized by a document context: look up the offset
and parse the indirect object there. -/
def getObj (ctx : DocCtx) (num : Nat) : Option PdfObject :=
  match lookupXref ctx.xd num with
  | none => none
  | some off =>
    match parseIndirectAt ctx.bytes off with
    | .ok o => some o
    | .error _ => none

/-- Resolution against a document context, at the spec's depth bound. -/
def resolveCtx (ctx : DocCtx) (o : PdfObject) : Except ExtractError PdfObject :=
  resolveRef cycleBound (getObj ctx) o

/-- Resolve every element of a filter array to a name. -/
def filterNamesList (ctx : DocCtx) : List PdfObject → Except ExtractError (List String)
  | [] => .ok []
  | e :: rest =>
    match resolveCtx ctx e with
    | .ok (.name n) =>
      match filterNamesList ctx rest with
      | .ok ns => .ok (n :: ns)
      | .error er => .error er
    | .ok _ => .error .malformedObject
    | .error er => .error er

/-- Modelled from the spec: decode a stream object's raw bytes through its
declared `/Filter` chain (single name, array of names, or absent). -/
def decodeStreamObj (ctx : DocCtx) (entries : List (String × PdfObject)) (raw : List Nat) :
    Except ExtractError (List Nat) :=
  match resolveCtx ctx ((dictGet entries "Filter").getD .null) with
  | .error e => .error e
  | .ok .null => .ok raw
  | .ok (.name n) => streamDecodeChain [n] raw
  | .ok (.array es) =>
    match filterNamesList ctx es with
    | .ok ns => streamDecodeChain ns raw
    | .error e => .error e
  | .ok _ => .error .malformedObject

/-! ### Page tree (spec §4.7) -/

/-- A page reached from the catalog: its (possibly inherited) resource
dictionary object and its `/Contents` object. -/
structure PageRef where
  resources : PdfObject
  contents : PdfObject
deriving Inhabited, Repr

/-- Modelled from the spec: depth-first page-tree walk, inheriting
`/Resources` from ancestors when a page omits its own.  The worklist holds
(node, inherited-resources) pairs; a unit that fails to resolve
contributes no pages (graceful degradation); the fuel bounds the number of
visited nodes. -/
def collectPagesW (ctx : DocCtx) : Nat → List (PdfObject × PdfObject) → List PageRef
  | 0, _ => []
  | _ + 1, [] => []
  | fuel + 1, (node, inhRes) :: work =>
    match resolveCtx ctx node with
    | .ok (.dict d) =>
      let res :=
        match dictGet d "Resources" with
        | some r => r
        | none => inhRes
      match dictGet d "Type" with
      | some (.name "Pages") =>
        match resolveCtx ctx ((dictGet d "Kids").getD .null) with
        | .ok (.array kids) => collectPagesW ctx fuel (kids.map (fun k => (k, res)) ++ work)
        | _ => collectPagesW ctx fuel work
      | some (.name "Page") =>
        ⟨res, (dictGet d "Contents").getD .null⟩ :: collectPagesW ctx fuel work
      | _ => collectPagesW ctx fuel work
    | _ => collectPagesW ctx fuel work

/-- Page-tree walk from the root node. -/
def collectPages (ctx : DocCtx) (node : PdfObject) : List PageRef :=
  collectPagesW ctx (ctx.bytes.length + 32) [(node, .null)]

/-- Modelled from the spec: build the xref index, locate the catalog from
the trailer's `/Root` (fatal if unlocatable), and collect the reachable
pages. -/
def loadDocument (bytes : List Nat) : Except ExtractError (DocCtx × List PageRef) :=
  match buildXref bytes with
  | .error e => .error e
  | .ok xd =>
    let ctx : DocCtx := ⟨bytes, xd⟩
    match dictGet xd.trailer "Root" with
    | none => .error .xrefError
    | some rootObj =>
      match resolveCtx ctx rootObj with
      | .error e => .error e
      | .ok (.dict cat) => .ok (ctx, collectPages ctx ((dictGet cat "Pages").getD .null))
      | .ok _ => .error .malformedObject

/-- The invertible filters of the spec's round-trip property (§8): the
generic compressor and the two ASCII encodings. -/
inductive Filter where
  | flate
  | asciiHex
  | ascii85
deriving DecidableEq, Repr

/-- The PDF name of each round-trip filter. -/
def filterName : Filter → String
  | .flate => "FlateDecode"
  | .asciiHex => "ASCIIHexDecode"
  | .ascii85 => "ASCII85Decode"

/-- Modelled from the spec: the conformant encoder for each filter. -/
def encodeFilter : Filter → List Nat → List Nat
  | .flate => flateEncode
  | .asciiHex => asciiHexEncode
  | .ascii85 => a85Encode

/-- Decoding through a filter, exactly as the engine dispatches it. -/
def decodeFilter (f : Filter) (raw : List Nat) : Except ExtractError (List Nat) :=
  streamDecodeOne (filterName f) raw

/-! ### FontEncodingTable (spec §4.5)

Modelled from the spec.  The standard Latin text encoding is restricted to
its printable-ASCII core and stands in for all named simple base
encodings; `/Differences` remaps codes through a minimal
glyph-name-to-Unicode table; composite fonts degrade to the spec's 1-byte
printable-ASCII fallback in this model. -/

/-- The standard Latin text encoding (printable-ASCII core): a code maps
to the character of the same value; other codes are undecodable. -/
def stdEncoding (c : Nat) : Option Char :=
  if 32 ≤ c ∧ c ≤ 126 then some (Char.ofNat c) else none

/-- Minimal multi-character glyph-name table. -/
def glyphTable : List (String × Nat) :=
  [("space", 32), ("exclam", 33), ("quotedbl", 34), ("numbersign", 35),
   ("percent", 37), ("ampersand", 38), ("quotesingle", 39),
   ("parenleft", 40), ("parenright", 41), ("asterisk", 42), ("plus", 43),
   ("comma", 44), ("hyphen", 45), ("period", 46), ("slash", 47),
   ("zero", 48), ("one", 49), ("two", 50), ("three", 51), ("four", 52),
   ("five", 53), ("six", 54), ("seven", 55), ("eight", 56), ("nine", 57),
   ("colon", 58), ("semicolon", 59), ("equal", 61), ("question", 63),
   ("at", 64), ("underscore", 95)]

/-- Static glyph-name-to-Unicode mapping: single printable characters name
themselves; a minimal table covers common multi-character names. -/
def glyphUni (g : String) : Option Char :=
  match g.data with
  | [c] => if 32 ≤ c.toNat ∧ c.toNat ≤ 126 then some c else none
  | _ =>
    match glyphTable.find? (fun e => e.1 == g) with
    | some e => some (Char.ofNat e.2)
    | none => none

/-- A `/Differences` array as a code → glyph-name map: an integer sets the
next code, a name claims the current code and advances it. -/
def diffsToMap : List PdfObject → Nat → List (Nat × String)
  | [], _ => []
  | .integer i :: rest, _ => diffsToMap rest i.toNat
  | .name g :: rest, cur => (cur, g) :: diffsToMap rest (cur + 1)
  | _ :: rest, cur => diffsToMap rest cur

/-- Remap specific codes of a base encoding through `/Differences`. -/
def applyDiffs (base : Nat → Option Char) (ds : List PdfObject) : Nat → Option Char :=
  fun c =>
    match (diffsToMap ds 0).find? (fun e => e.1 == c) with
    | some e => glyphUni e.2
    | none => base c

/-- Modelled from the spec: build a simple font's code-to-Unicode map from
its dictionary: named base encoding (the standard encoding by default),
then `/Differences`.  Composite (`Type0`) and undecodable fonts degrade to
the printable-ASCII fallback rather than aborting. -/
def buildFont (ctx : DocCtx) (fontDict : List (String × PdfObject)) : Nat → Option Char :=
  match dictGet fontDict "Subtype" with
  | some (.name "Type0") => stdEncoding
  | _ =>
    match resolveCtx ctx ((dictGet fontDict "Encoding").getD .null) with
    | .ok (.dict encD) =>
      match resolveCtx ctx ((dictGet encD "Differences").getD .null) with
      | .ok (.array ds) => applyDiffs stdEncoding ds
      | _ => stdEncoding
    | _ => stdEncoding

/-- The decoding function for the font a text event was shown with: the
event's font name looked up in the page's resolved `/Resources` → `/Font`
dictionary; every missing piece degrades to the fallback. -/
def fontOf (ctx : DocCtx) (p : PageRef) (fname : Option String) : Nat → Option Char :=
  match fname with
  | none => stdEncoding
  | some f =>
    match resolveCtx ctx p.resources with
    | .ok (.dict rd) =>
      match resolveCtx ctx ((dictGet rd "Font").getD .null) with
      | .ok (.dict fd) =>
        match resolveCtx ctx ((dictGet fd f).getD .null) with
        | .ok (.dict fontD) => buildFont ctx fontD
        | _ => stdEncoding
      | _ => stdEncoding
    | _ => stdEncoding

/-! ### ContentInterpreter (spec §4.6)

Modelled from the spec: a stack machine over content tokens recognizing
the text-relevant operators; all other operators are consumed for
stack-balance purposes only.  Positions are the text-space origin
(translation components), used only by the sequencing heuristics. -/

/-- A content-stream token: an operand object or an operator keyword. -/
inductive ContentToken where
  | obj (o : PdfObject)
  | op (name : String)
deriving Repr

/-- Tokenize a content stream: objects parse as operands; a maximal run of
regular bytes that is no object is an operator; an unparsable byte is
skipped (malformed operators are anomalies, not fatal). -/
def tokenizeContent : Nat → List Nat → List ContentToken
  | 0, _ => []
  | fuel + 1, bs =>
    match skipWs bs with
    | [] => []
    | s =>
      match parseObject (parseFuel s) s with
      | .ok (o, rest) => .obj o :: tokenizeContent fuel rest
      | .error _ =>
        let opBytes := s.takeWhile isRegular
        if opBytes.isEmpty then tokenizeContent fuel (s.drop 1)
        else .op (bytesToString opBytes) :: tokenizeContent fuel (s.drop opBytes.length)

/-- The `TextState` of spec §3 (the components this model tracks):
selected font and size, text/line-matrix and transformation translations,
and the leading. -/
structure TState where
  fname : Option String
  fsize : Int
  tmx : Int
  tmy : Int
  lmx : Int
  lmy : Int
  ctmx : Int
  ctmy : Int
  leading : Int
deriving Repr, Inhabited

/-- Text state at the start of a page's content stream. -/
def initTState : TState :=
  ⟨none, 0, 0, 0, 0, 0, 0, 0, 0⟩

/-- One text-showing operation: the selected font, the raw code bytes, and
the approximate text-space origin. -/
structure TextEvent where
  font : Option String
  codes : List Nat
  x : Int
  y : Int
  size : Int
deriving Repr, Inhabited

/-- Numeric operand value (a real truncates toward zero). -/
def objToInt : PdfObject → Int
  | .integer i => i
  | .real m s => m / (10 ^ s : Int)
  | _ => 0

/-- The text event a show operation emits in the given state. -/
def mkEvent (st : TState) (codes : List Nat) : TextEvent :=
  ⟨st.fname, codes, st.ctmx + st.tmx, st.ctmy + st.tmy, st.fsize⟩

/-- Events of a `TJ` array: one per string element, adjustments ignored. -/
def tjEvents (st : TState) : List PdfObject → List TextEvent
  | [] => []
  | .string s :: rest => mkEvent st s :: tjEvents st rest
  | _ :: rest => tjEvents st rest

/-- Move to the next line: the line matrix drops by the leading and the
text matrix follows it. -/
def nextLine (st : TState) : TState :=
  { st with lmy := st.lmy - st.leading, tmx := st.lmx, tmy := st.lmy - st.leading }

/-- Modelled from the spec: run the operator stream.  Operands push onto
the stack (top first); every operator consumes the whole stack (unknown
operators are parsed for stack balance only and skipped). -/
def interpTokens : List ContentToken → TState → List PdfObject → List TextEvent
  | [], _, _ => []
  | .obj o :: rest, st, stk => interpTokens rest st (o :: stk)
  | .op o :: rest, st, stk =>
    if o == "BT" then
      interpTokens rest { st with tmx := 0, tmy := 0, lmx := 0, lmy := 0 } []
    else if o == "Tf" then
      match stk with
      | sz :: .name f :: _ =>
        interpTokens rest { st with fname := some f, fsize := objToInt sz } []
      | _ => interpTokens rest st []
    else if o == "Td" then
      match stk with
      | ty :: tx :: _ =>
        let nx := st.lmx + objToInt tx
        let ny := st.lmy + objToInt ty
        interpTokens rest { st with lmx := nx, lmy := ny, tmx := nx, tmy := ny } []
      | _ => interpTokens rest st []
    else if o == "TD" then
      match stk with
      | ty :: tx :: _ =>
        let nx := st.lmx + objToInt tx
        let ny := st.lmy + objToInt ty
        interpTokens rest
          { st with leading := -(objToInt ty), lmx := nx, lmy := ny, tmx := nx, tmy := ny } []
      | _ => interpTokens rest st []
    else if o == "TL" then
      match stk with
      | l :: _ => interpTokens rest { st with leading := objToInt l } []
      | _ => interpTokens rest st []
    else if o == "Tm" then
      match stk with
      | f :: e :: _ :: _ :: _ :: _ :: _ =>
        interpTokens rest
          { st with tmx := objToInt e, tmy := objToInt f, lmx := objToInt e, lmy := objToInt f } []
      | _ => interpTokens rest st []
    else if o == "T*" then
      interpTokens rest (nextLine st) []
    else if o == "Tj" then
      match stk with
      | .string s :: _ => mkEvent st s :: interpTokens rest st []
      | _ => interpTokens rest st []
    else if o == "TJ" then
      match stk with
      | .array es :: _ => tjEvents st es ++ interpTokens rest st []
      | _ => interpTokens rest st []
    else if o == bytesToString [39] then
      match stk with
      | .string s :: _ =>
        mkEvent (nextLine st) s :: interpTokens rest (nextLine st) []
      | _ => interpTokens rest (nextLine st) []
    else if o == bytesToString [34] then
      match stk with
      | .string s :: _ :: _ :: _ =>
        mkEvent (nextLine st) s :: interpTokens rest (nextLine st) []
      | _ => interpTokens rest (nextLine st) []
    else if o == "cm" then
      match stk with
      | f :: e :: _ :: _ :: _ :: _ :: _ =>
        interpTokens rest { st with ctmx := st.ctmx + objToInt e, ctmy := st.ctmy + objToInt f } []
      | _ => interpTokens rest st []
    else
      interpTokens rest st []

/-! ### PageAssembler (spec §4.7) -/

/-- Concatenated decoded bytes of a `/Contents` array, with an inserted
whitespace separator between consecutive streams, as the spec directs. -/
def contentArrayBytes (ctx : DocCtx) : List PdfObject → Except ExtractError (List Nat)
  | [] => .ok []
  | e :: rest =>
    match resolveCtx ctx e with
    | .ok (.stream d raw) =>
      match decodeStreamObj ctx d raw with
      | .ok bs =>
        if rest.isEmpty then .ok bs
        else
          match contentArrayBytes ctx rest with
          | .ok bs2 => .ok (bs ++ 32 :: bs2)
          | .error e2 => .error e2
      | .error e2 => .error e2
    | .ok _ => .error .malformedObject
    | .error e2 => .error e2

/-- Modelled from the spec: a page's decoded content-stream bytes (single
stream, array of streams, or none). -/
def pageContentBytes (ctx : DocCtx) (p : PageRef) : Except ExtractError (List Nat) :=
  match resolveCtx ctx p.contents with
  | .error e => .error e
  | .ok (.stream d raw) => decodeStreamObj ctx d raw
  | .ok (.array es) => contentArrayBytes ctx es
  | .ok .null => .ok []
  | .ok _ => .error .malformedObject

/-- The text events of one page: decode the content, tokenize, interpret.
One event per show operation, in stream order. -/
def pageEvents (ctx : DocCtx) (p : PageRef) : Except ExtractError (List TextEvent) :=
  match pageContentBytes ctx p with
  | .error e => .error e
  | .ok cb => .ok (interpTokens (tokenizeContent (cb.length + 1) cb) initTState [])

/-- Unicode text of one event: its code bytes decoded through the active
font (undecodable codes contribute nothing, per the spec's degradation). -/
def eventText (ctx : DocCtx) (p : PageRef) (ev : TextEvent) : String :=
  String.mk (ev.codes.filterMap (fontOf ctx p ev.font))

/-- Separator between consecutive runs (spec §4.7 heuristics): a newline
when the vertical coordinate drops by more than one line height (the font
size), a space when the horizontal gap exceeds the font size. -/
def runSep (prev cur : TextEvent) : String :=
  if cur.y < prev.y - prev.size then "\n"
  else if cur.x > prev.x + prev.size then " "
  else ""

/-- Join the runs after the first, inserting heuristic separators. -/
def joinRunsAux (prev : TextEvent) : List (TextEvent × String) → String
  | [] => ""
  | (e, s) :: rest => runSep prev e ++ s ++ joinRunsAux e rest

/-- Join a page's runs into its linear text. -/
def joinRuns : List (TextEvent × String) → String
  | [] => ""
  | (e, s) :: rest => s ++ joinRunsAux e rest

/-- Modelled from the spec: one page's text; any page-scoped failure makes
the page contribute no text instead of aborting the document. -/
def extractPage (ctx : DocCtx) (p : PageRef) : Option String :=
  match pageEvents ctx p with
  | .error _ => none
  | .ok evs => some (joinRuns (evs.map (fun ev => (ev, eventText ctx p ev))))

/-- Join page texts with a single newline between consecutive pages. -/
def joinPageTexts : List String → String
  | [] => ""
  | [s] => s
  | s :: rest => s ++ "\n" ++ joinPageTexts rest

/-- Modelled from the spec (§4.7, §6, §7): the sole boundary
`extract_text(bytes) -> Result<String, ExtractError>`.  Structural
failures surface to the caller; zero reachable pages is `EmptyDocument`;
otherwise the surviving pages' texts are joined with single newlines,
failed pages contributing no text. -/
def extract_text (bytes : List Nat) : Except ExtractError String :=
  match loadDocument bytes with
  | .error e => .error e
  | .ok (ctx, pages) =>
    match pages with
    | [] => .error .emptyDocument
    | _ => .ok (joinPageTexts (pages.filterMap (extractPage ctx)))

/-! ### Concrete documents and stores used as witnesses -/

/-- A store holding a single object that refers to itself. -/
def selfRefStore : ObjStore :=
  fun n => if n == 1 then some (.ref 1 0) else none

/-- A well-formed document whose page tree has zero reachable pages. -/
def docEmptyPages : List Nat := strBytes
  "%PDF-1.4\n1 0 obj\n<< /Type /Catalog /Pages 2 0 R >>\nendobj\n2 0 obj\n<< /Type /Pages /Kids [] /Count 0 >>\nendobj\ntrailer\n<< /Root 1 0 R >>\n%%EOF"

/-- The context `loadDocument` builds for `docEmptyPages`. -/
def ctxEmptyPages : DocCtx :=
  ⟨docEmptyPages, (buildXref docEmptyPages).toOption.getD default⟩

/-- A minimal one-page document: a single content stream with one
text-showing operator showing the code sequence for "Hi" in a simple font
with the standard (default) encoding. -/
def docHi : List Nat := strBytes
  "%PDF-1.4\n1 0 obj\n<< /Type /Catalog /Pages 2 0 R >>\nendobj\n2 0 obj\n<< /Type /Pages /Kids [3 0 R] /Count 1 >>\nendobj\n3 0 obj\n<< /Type /Page /Parent 2 0 R /Resources << /Font << /F1 5 0 R >> >> /Contents 4 0 R >>\nendobj\n4 0 obj\n<< >>\nstream\nBT /F1 12 Tf 72 720 Td (Hi) Tj ET\nendstream\nendobj\n5 0 obj\n<< /Type /Font /Subtype /Type1 /BaseFont /Helvetica >>\nendobj\ntrailer\n<< /Root 1 0 R >>\n%%EOF"

/-- The context `loadDocument` builds for `docHi`. -/
def ctxHi : DocCtx :=
  ⟨docHi, (buildXref docHi).toOption.getD default⟩

/-- The single page `loadDocument` collects from `docHi`. -/
def pageHi : PageRef :=
  (((loadDocument docHi).toOption.getD default).2).headD default

/-- The single text event of `docHi`'s page. -/
def evHi : TextEvent :=
  ((pageEvents ctxHi pageHi).toOption.getD []).headD default

/-- A document with one well-formed page (showing "Hi") and one page whose
content stream declares the unsupported filter `/Crypt`. -/
def docTwoPages : List Nat := strBytes
  "%PDF-1.4\n1 0 obj\n<< /Type /Catalog /Pages 2 0 R >>\nendobj\n2 0 obj\n<< /Type /Pages /Kids [3 0 R 6 0 R] /Count 2 >>\nendobj\n3 0 obj\n<< /Type /Page /Parent 2 0 R /Resources << /Font << /F1 5 0 R >> >> /Contents 4 0 R >>\nendobj\n4 0 obj\n<< >>\nstream\nBT /F1 12 Tf 72 720 Td (Hi) Tj ET\nendstream\nendobj\n5 0 obj\n<< /Type /Font /Subtype /Type1 /BaseFont /Helvetica >>\nendobj\n6 0 obj\n<< /Type /Page /Parent 2 0 R /Contents 7 0 R >>\nendobj\n7 0 obj\n<< /Filter /Crypt >>\nstream\nxxxx\nendstream\nendobj\ntrailer\n<< /Root 1 0 R >>\n%%EOF"

/-- The context `loadDocument` builds for `docTwoPages`. -/
def ctxTwoPages : DocCtx :=
  ⟨docTwoPages, (buildXref docTwoPages).toOption.getD default⟩

/-- The well-formed first page of `docTwoPages`. -/
def pageTwoGood : PageRef :=
  (((loadDocument docTwoPages).toOption.getD default).2).headD default

/-- The unsupported-filter second page of `docTwoPages`. -/
def pageTwoBad : PageRef :=
  ((((loadDocument docTwoPages).toOption.getD default).2).drop 1).headD default

end Core

/-! ## Theorems -/

/-- Auxiliary: a reference chain longer than the fuel makes bounded
resolution fail with `ReferenceCycle`. -/
theorem resolveRef_cycle_of_chain (store : Core.ObjStore) :
    ∀ (fuel : Nat) (o : Core.PdfObject), Core.chainAll store o (fuel + 1) = true →
      Core.resolveRef fuel store o = .error .referenceCycle := by
  intro fuel
  induction fuel with
  | zero =>
    intro o h
    cases o <;> first
      | rfl
      | simp [Core.chainAll] at h
  | succ fuel ih =>
    intro o h
    cases o with
    | ref num gen =>
      cases hs : store num with
      | none => simp [Core.chainAll, hs] at h
      | some o2 =>
        simp only [Core.chainAll, hs] at h
        simp only [Core.resolveRef, hs]
        exact ih o2 h
    | null => simp [Core.chainAll] at h
    | boolean b => simp [Core.chainAll] at h
    | integer i => simp [Core.chainAll] at h
    | real m s => simp [Core.chainAll] at h
    | string s => simp [Core.chainAll] at h
    | name n => simp [Core.chainAll] at h
    | array es => simp [Core.chainAll] at h
    | dict es => simp [Core.chainAll] at h
    | stream es raw => simp [Core.chainAll] at h

/-- C1: the sole entry point takes a byte sequence and, for every input —
malformed PDF input included — returns a typed result: either `ok` with a
string or `error` with an `ExtractError`; it is a total function, so it
can neither panic nor terminate the process. -/
theorem claim1_extract_text_total (bytes : List Nat) :
    (∃ s, Core.extract_text bytes = .ok s) ∨
      (∃ e, Core.extract_text bytes = .error e) :=
  match Core.extract_text bytes with
  | .ok s => .inl ⟨s, rfl⟩
  | .error e => .inr ⟨e, rfl⟩

/-- C2: whenever the external library's extraction succeeds, `ocr` returns
exactly the extracted string, unmodified. -/
theorem claim2_ocr_forwards_success (lib : LibFun) (bytes : List Nat) (s : String)
    (h : lib bytes = .ok s) : ocr lib bytes = some s := by
  unfold ocr
  rw [h]

/-- Witness for C2 at a concrete library and input. -/
theorem claim2_ocr_forwards_success_witness :
    ocr (fun _ => .ok "Hi") [37, 80] = some "Hi" :=
  claim2_ocr_forwards_success (fun _ => .ok "Hi") [37, 80] "Hi" rfl

/-- C3: on every input where the library returns an error, `ocr`'s
unconditional unwrap panics (modelled as `none`) instead of producing a
value — the error branch is a program fault, not a recoverable result. -/
theorem claim3_ocr_panics_on_error (lib : LibFun) (bytes : List Nat) (e : LibError)
    (h : lib bytes = .error e) : ocr lib bytes = none := by
  unfold ocr
  rw [h]

/-- Witness for C3 at a concrete failing library and input. -/
theorem claim3_ocr_panics_on_error_witness :
    ocr (fun _ => .error (.mk "bad xref")) [0] = none :=
  claim3_ocr_panics_on_error (fun _ => .error (.mk "bad xref")) [0] (.mk "bad xref") rfl

/-- C4: a document whose load yields zero reachable pages makes
`extract_text` return the `EmptyDocument` error — not a panic (the
function is total) and not an empty-string success. -/
theorem claim4_empty_document (bytes : List Nat) (ctx : Core.DocCtx)
    (h : Core.loadDocument bytes = .ok (ctx, [])) :
    Core.extract_text bytes = .error .emptyDocument := by
  unfold Core.extract_text
  rw [h]

/-- Witness for C4: a concrete catalog with an empty page tree. -/
theorem claim4_empty_document_witness :
    Core.extract_text Core.docEmptyPages = .error .emptyDocument :=
  claim4_empty_document Core.docEmptyPages Core.ctxEmptyPages rfl

/-- C8: reference resolution is total (it is a function), and on every
chain of indirect references deeper than the fixed cycle bound of 32 it
fails with `ReferenceCycle` instead of looping. -/
theorem claim8_reference_cycle (store : Core.ObjStore) (o : Core.PdfObject)
    (h : Core.chainAll store o (Core.cycleBound + 1) = true) :
    Core.resolve store o = .error .referenceCycle :=
  resolveRef_cycle_of_chain store Core.cycleBound o h

/-- Witness for C8: a synthetic self-referencing object. -/
theorem claim8_reference_cycle_witness :
    Core.resolve Core.selfRefStore (.ref 1 0) = .error .referenceCycle :=
  claim8_reference_cycle Core.selfRefStore (.ref 1 0) (by decide)

/-- C9: `ocr` is deterministic — with the library a fixed function of its
input, equal byte buffers yield equal results. -/
theorem claim9_ocr_deterministic (lib : LibFun) (b1 b2 : List Nat)
    (h : b1 = b2) : ocr lib b1 = ocr lib b2 := by
  rw [h]

/-- Witness for C9 at a concrete library and buffer. -/
theorem claim9_ocr_deterministic_witness :
    ocr (fun _ => .ok "x") [1, 2, 3] = ocr (fun _ => .ok "x") [1, 2, 3] :=
  claim9_ocr_deterministic (fun _ => .ok "x") [1, 2, 3] [1, 2, 3] rfl

/-- C10: `ocr` never mutates its input: in the state-passing embedding the
buffer after the call is exactly the buffer before it. -/
theorem claim10_ocr_preserves_input (lib : LibFun) (buf : List Nat) :
    ((ocrState lib).run buf).2 = buf := rfl

/-- Auxiliary: on printable-ASCII codes the standard encoding decodes every
code to the character of the same value. -/
theorem filterMap_stdEncoding (cs : List Nat) (h : ∀ c ∈ cs, 32 ≤ c ∧ c ≤ 126) :
    cs.filterMap Core.stdEncoding = cs.map Char.ofNat := by
  induction cs with
  | nil => rfl
  | cons c cs ih =>
    have hc : Core.stdEncoding c = some (Char.ofNat c) := by
      simp [Core.stdEncoding, h c (List.mem_cons_self c cs)]
    rw [List.filterMap_cons, hc, List.map_cons,
      ih (fun x hx => h x (List.mem_cons_of_mem c hx))]

/-- C5: a minimal one-page document — its load reaches exactly one page
whose interpretation emits exactly one text-showing event, in a font that
resolves to the standard encoding — extracts to exactly the shown string
content: the characters of the shown code sequence. -/
theorem claim5_minimal_document (bytes : List Nat) (ctx : Core.DocCtx)
    (p : Core.PageRef) (ev : Core.TextEvent) (cs : List Nat)
    (h1 : Core.loadDocument bytes = .ok (ctx, [p]))
    (h2 : Core.pageEvents ctx p = .ok [ev])
    (h3 : ev.codes = cs)
    (h4 : Core.fontOf ctx p ev.font = Core.stdEncoding)
    (h5 : ∀ c ∈ cs, 32 ≤ c ∧ c ≤ 126) :
    Core.extract_text bytes = .ok (String.mk (cs.map Char.ofNat)) := by
  unfold Core.extract_text
  rw [h1]
  have hpage : Core.extractPage ctx p =
      some (String.mk (cs.map Char.ofNat)) := by
    unfold Core.extractPage
    rw [h2]
    simp only [List.map_cons, List.map_nil, Core.joinRuns, Core.joinRunsAux]
    unfold Core.eventText
    rw [h3, h4, filterMap_stdEncoding cs h5, String.append_empty]
  simp only [List.filterMap_cons, List.filterMap_nil, hpage, Core.joinPageTexts]

set_option maxHeartbeats 4000000 in
/-- Witness for C5: the concrete minimal document showing "Hi". -/
theorem claim5_minimal_document_witness :
    Core.extract_text Core.docHi = .ok "Hi" :=
  claim5_minimal_document Core.docHi Core.ctxHi Core.pageHi Core.evHi [72, 105]
    rfl rfl rfl rfl (by decide)

/-- C6: a document loading as one well-formed page (extracting to `s`) and
one page whose content stream declares an unsupported filter — in either
order — still extracts to exactly `s`: the single page's failure does not
abort the document. -/
theorem claim6_partial_failure (bytes : List Nat) (ctx : Core.DocCtx)
    (p1 p2 : Core.PageRef) (s : String) (f : String)
    (h1 : Core.loadDocument bytes = .ok (ctx, [p1, p2]) ∨
      Core.loadDocument bytes = .ok (ctx, [p2, p1]))
    (h2 : Core.extractPage ctx p1 = some s)
    (h3 : Core.pageContentBytes ctx p2 = .error (.unsupportedFilter f)) :
    Core.extract_text bytes = .ok s := by
  have hbad : Core.extractPage ctx p2 = none := by
    unfold Core.extractPage Core.pageEvents
    rw [h3]
  cases h1 with
  | inl h =>
    unfold Core.extract_text
    rw [h]
    simp only [List.filterMap_cons, List.filterMap_nil, h2, hbad, Core.joinPageTexts]
  | inr h =>
    unfold Core.extract_text
    rw [h]
    simp only [List.filterMap_cons, List.filterMap_nil, h2, hbad, Core.joinPageTexts]

set_option maxHeartbeats 8000000 in
/-- Witness for C6: the concrete two-page document whose second page uses
the unsupported filter `/Crypt`. -/
theorem claim6_partial_failure_witness :
    Core.extract_text Core.docTwoPages = .ok "Hi" :=
  claim6_partial_failure Core.docTwoPages Core.ctxTwoPages Core.pageTwoGood
    Core.pageTwoBad "Hi" "Crypt" (.inl rfl) rfl rfl
/-- Auxiliary: facts about hex digit characters, by finite check. -/
theorem hexDigitChar_spec : ∀ v : Nat, v < 16 →
    (Core.hexDigitChar v == 62) = false ∧
    Core.isWhite (Core.hexDigitChar v) = false ∧
    Core.hexVal (Core.hexDigitChar v) = some v := by decide

/-- Auxiliary: ASCII-hex decoding undoes ASCII-hex encoding, worker form. -/
theorem asciiHex_roundtrip_aux (bs : List Nat) (h : ∀ b ∈ bs, b < 256) :
    Core.asciiHexDecodeAux
      ((bs.map (fun b => [Core.hexDigitChar (b / 16), Core.hexDigitChar (b % 16)])).flatten
        ++ [62]) none = .ok bs := by
  induction bs with
  | nil => rfl
  | cons b rest ih =>
    have hb : b < 256 := h b (List.mem_cons_self b rest)
    obtain ⟨e1, e2, e3⟩ := hexDigitChar_spec (b / 16) (by omega)
    obtain ⟨f1, f2, f3⟩ := hexDigitChar_spec (b % 16) (by omega)
    have ih2 := ih (fun x hx => h x (List.mem_cons_of_mem b hx))
    simp only [List.map_cons, List.flatten_cons, List.cons_append, List.append_assoc]
    rw [Core.asciiHexDecodeAux]
    simp only [e1, e2, e3, Bool.false_eq_true, if_false, ite_false]
    have hb2 : b / 16 * 16 + b % 16 = b := by omega
    rw [Core.asciiHexDecodeAux]
    simp only [f1, f2, f3, Bool.false_eq_true, if_false, ite_false, List.nil_append, hb2]
    rw [ih2]

/-- Auxiliary: the ASCII-hex filter round-trip on well-formed byte buffers. -/
theorem asciiHex_roundtrip (bs : List Nat) (h : validBytes bs = true) :
    Core.asciiHexDecode (Core.asciiHexEncode bs) = .ok bs := by
  unfold Core.asciiHexDecode Core.asciiHexEncode
  exact asciiHex_roundtrip_aux bs (by simpa [validBytes, List.all_eq_true] using h)

/-- Auxiliary: stored-block decoding undoes stored-block encoding for a
buffer that fits one final block. -/
theorem flate_small (bs : List Nat) (hle : bs.length ≤ 65535) :
    Core.flateDecode (Core.flateEncode bs) = .ok bs := by
  rw [Core.flateEncode, if_pos hle, Core.flateDecode]
  have c1 : bs.length % 256 < 256 := by omega
  have c2 : bs.length / 256 < 256 := by omega
  have c3 : bs.length % 256 + 256 * (bs.length / 256) = bs.length := by omega
  rw [if_pos ⟨rfl, rfl, c1, c2⟩, c3]
  rw [if_pos (le_refl bs.length), if_pos rfl, if_pos rfl]

/-- Auxiliary: stored-block decoding undoes stored-block encoding, by
strong induction on the buffer length. -/
theorem flate_roundtrip_aux : ∀ (n : Nat) (bs : List Nat), bs.length ≤ n →
    Core.flateDecode (Core.flateEncode bs) = .ok bs := by
  intro n
  induction n with
  | zero =>
    intro bs hlen
    exact flate_small bs (by omega)
  | succ n ih =>
    intro bs hlen
    by_cases hle : bs.length ≤ 65535
    · exact flate_small bs hle
    · rw [Core.flateEncode, if_neg hle, Core.flateDecode]
      have hlt : 65535 < bs.length := by omega
      have htake : (bs.take 65535).length = 65535 := by
        simp [List.length_take]; omega
      have hrest : 255 + 256 * 255 ≤ (bs.take 65535 ++ Core.flateEncode (bs.drop 65535)).length := by
        simp [List.length_append, htake]
      rw [if_pos ⟨rfl, rfl, by omega, by omega⟩]
      rw [if_pos hrest]
      have hne1 : (0 : Nat) ≠ 1 := by omega
      rw [if_neg hne1, if_pos rfl]
      have hdrop : (bs.take 65535 ++ Core.flateEncode (bs.drop 65535)).drop (255 + 256 * 255) =
          Core.flateEncode (bs.drop 65535) := by
        have h65 : 255 + 256 * 255 = (bs.take 65535).length := by rw [htake]
        rw [h65, List.drop_left]
      have htk : (bs.take 65535 ++ Core.flateEncode (bs.drop 65535)).take (255 + 256 * 255) =
          bs.take 65535 := by
        have h65 : 255 + 256 * 255 = (bs.take 65535).length := by rw [htake]
        rw [h65, List.take_left]
      rw [hdrop, htk, ih (bs.drop 65535) (by simp [List.length_drop]; omega)]
      show Except.ok (List.take 65535 bs ++ List.drop 65535 bs) = Except.ok bs
      rw [List.take_append_drop]

/-- Auxiliary: the generic-compressor (stored-block) round-trip. -/
theorem flate_roundtrip (bs : List Nat) :
    Core.flateDecode (Core.flateEncode bs) = .ok bs :=
  flate_roundtrip_aux bs.length bs (le_refl _)

/-- Auxiliary: a digit byte extends the current (short) ASCII-85 group. -/
theorem a85_step (v : Nat) (rest grp : List Nat) (hv : v < 85) (hlen : grp.length ≤ 3) :
    Core.a85DecodeAux ((33 + v) :: rest) grp = Core.a85DecodeAux rest (grp ++ [v]) := by
  have h126 : ((33 + v : Nat) == 126) = false := by simp; omega
  have hw : Core.isWhite (33 + v) = false := by simp [Core.isWhite]; omega
  have h122 : ((33 + v : Nat) == 122) = false := by simp; omega
  have hrange : (decide (33 ≤ (33 + v : Nat)) && decide ((33 + v : Nat) ≤ 117)) = true := by
    simp; omega
  have hlen5 : ((grp ++ [v]).length == 5) = false := by simp; omega
  have hsub : 33 + v - 33 = v := by omega
  rw [Core.a85DecodeAux]
  simp only [h126, hw, h122, hrange, hlen5, hsub, Bool.false_and, Bool.false_eq_true, if_false,
    ite_false, if_true, ite_true]

/-- Auxiliary: the fifth digit byte completes an ASCII-85 group. -/
theorem a85_step5 (v : Nat) (rest : List Nat) (g0 g1 g2 g3 : Nat) (hv : v < 85) :
    Core.a85DecodeAux ((33 + v) :: rest) [g0, g1, g2, g3] =
      (if Core.a85Recompose [g0, g1, g2, g3, v] < 4294967296 then
        match Core.a85DecodeAux rest [] with
        | .ok tl => .ok (Core.a85GroupBytes (Core.a85Recompose [g0, g1, g2, g3, v]) ++ tl)
        | .error e => .error e
      else .error .decodeError) := by
  have h126 : ((33 + v : Nat) == 126) = false := by simp; omega
  have hw : Core.isWhite (33 + v) = false := by simp [Core.isWhite]; omega
  have h122 : ((33 + v : Nat) == 122) = false := by simp; omega
  have hrange : (decide (33 ≤ (33 + v : Nat)) && decide ((33 + v : Nat) ≤ 117)) = true := by
    simp; omega
  have hsub : 33 + v - 33 = v := by omega
  rw [Core.a85DecodeAux]
  simp only [h126, hw, h122, hrange, hsub, Bool.false_and, Bool.false_eq_true, if_false,
    ite_false, if_true, ite_true, List.cons_append, List.nil_append, List.length_cons,
    List.length_nil, Nat.reduceAdd, beq_self_eq_true]

/-- Auxiliary: end of data after a two-digit leftover group. -/
theorem a85_eod2 (d0 d1 : Nat) :
    Core.a85DecodeAux [126, 62] [d0, d1] =
      (if Core.a85Recompose [d0, d1, 84, 84, 84] < 4294967296 then
        .ok [Core.a85Recompose [d0, d1, 84, 84, 84] / 16777216 % 256]
      else .error .decodeError) := by
  rfl

/-- Auxiliary: end of data after a three-digit leftover group. -/
theorem a85_eod3 (d0 d1 d2 : Nat) :
    Core.a85DecodeAux [126, 62] [d0, d1, d2] =
      (if Core.a85Recompose [d0, d1, d2, 84, 84] < 4294967296 then
        .ok [Core.a85Recompose [d0, d1, d2, 84, 84] / 16777216 % 256,
             Core.a85Recompose [d0, d1, d2, 84, 84] / 65536 % 256]
      else .error .decodeError) := by
  rfl

/-- Auxiliary: end of data after a four-digit leftover group. -/
theorem a85_eod4 (d0 d1 d2 d3 : Nat) :
    Core.a85DecodeAux [126, 62] [d0, d1, d2, d3] =
      (if Core.a85Recompose [d0, d1, d2, d3, 84] < 4294967296 then
        .ok [Core.a85Recompose [d0, d1, d2, d3, 84] / 16777216 % 256,
             Core.a85Recompose [d0, d1, d2, d3, 84] / 65536 % 256,
             Core.a85Recompose [d0, d1, d2, d3, 84] / 256 % 256]
      else .error .decodeError) := by
  rfl

/-- Auxiliary: ASCII-85 decoding undoes ASCII-85 encoding, by strong
induction on the buffer length (one 4-byte group per step). -/
theorem a85_roundtrip_aux : ∀ (n : Nat) (bs : List Nat), bs.length ≤ n →
    (∀ b ∈ bs, b < 256) → Core.a85DecodeAux (Core.a85Encode bs) [] = .ok bs := by
  intro n
  induction n with
  | zero =>
    intro bs hlen _
    have hnil : bs = [] := List.length_eq_zero.mp (Nat.le_zero.mp hlen)
    subst hnil
    rfl
  | succ n ih =>
    intro bs hlen hb
    cases bs with
    | nil => rfl
    | cons b0 t0 =>
      cases t0 with
      | nil =>
        have h0 : b0 < 256 := hb b0 (by simp)
        have g1 : b0 * 16777216 / 614125 / 85 = b0 * 16777216 / 52200625 := by
          rw [Nat.div_div_eq_div_mul]
        simp only [Core.a85Encode, Core.a85Value, Nat.zero_mul, Nat.add_zero]
        rw [a85_step, a85_step]
        simp only [List.nil_append, List.cons_append]
        rw [a85_eod2]
        have hE : Core.a85Recompose [b0 * 16777216 / 52200625,
            b0 * 16777216 / 614125 % 85, 84, 84, 84] =
            614125 * (b0 * 16777216 / 614125) + 614124 := by
          simp only [Core.a85Recompose, List.foldl]
          omega
        rw [hE]
        rw [if_pos (show 614125 * (b0 * 16777216 / 614125) + 614124 < 4294967296 by omega)]
        have hq0 : (614125 * (b0 * 16777216 / 614125) + 614124) / 16777216 = b0 := by omega
        rw [hq0, Nat.mod_eq_of_lt h0]
        all_goals try simp
        all_goals omega
      | cons b1 t1 =>
        cases t1 with
        | nil =>
          have h0 : b0 < 256 := hb b0 (by simp)
          have h1 : b1 < 256 := hb b1 (by simp)
          have g1 : (b0 * 16777216 + b1 * 65536) / 614125 / 85 =
              (b0 * 16777216 + b1 * 65536) / 52200625 := by
            rw [Nat.div_div_eq_div_mul]
          have g2 : (b0 * 16777216 + b1 * 65536) / 7225 / 85 =
              (b0 * 16777216 + b1 * 65536) / 614125 := by
            rw [Nat.div_div_eq_div_mul]
          simp only [Core.a85Encode, Core.a85Value, Nat.zero_mul, Nat.add_zero]
          rw [a85_step, a85_step, a85_step]
          simp only [List.nil_append, List.cons_append]
          rw [a85_eod3]
          have hE : Core.a85Recompose [(b0 * 16777216 + b1 * 65536) / 52200625,
              (b0 * 16777216 + b1 * 65536) / 614125 % 85,
              (b0 * 16777216 + b1 * 65536) / 7225 % 85, 84, 84] =
              7225 * ((b0 * 16777216 + b1 * 65536) / 7225) + 7224 := by
            simp only [Core.a85Recompose, List.foldl]
            omega
          rw [hE]
          rw [if_pos (show 7225 * ((b0 * 16777216 + b1 * 65536) / 7225) + 7224 <
              4294967296 by omega)]
          have hq0 : (7225 * ((b0 * 16777216 + b1 * 65536) / 7225) + 7224) /
              16777216 = b0 := by omega
          have hq1 : (7225 * ((b0 * 16777216 + b1 * 65536) / 7225) + 7224) /
              65536 = b0 * 256 + b1 := by omega
          rw [hq0, hq1, Nat.mod_eq_of_lt h0,
            show (b0 * 256 + b1) % 256 = b1 by omega]
          all_goals try simp
          all_goals omega
        | cons b2 t2 =>
          cases t2 with
          | nil =>
            have h0 : b0 < 256 := hb b0 (by simp)
            have h1 : b1 < 256 := hb b1 (by simp)
            have h2 : b2 < 256 := hb b2 (by simp)
            have g1 : (b0 * 16777216 + b1 * 65536 + b2 * 256) / 614125 / 85 =
                (b0 * 16777216 + b1 * 65536 + b2 * 256) / 52200625 := by
              rw [Nat.div_div_eq_div_mul]
            have g2 : (b0 * 16777216 + b1 * 65536 + b2 * 256) / 7225 / 85 =
                (b0 * 16777216 + b1 * 65536 + b2 * 256) / 614125 := by
              rw [Nat.div_div_eq_div_mul]
            have g3 : (b0 * 16777216 + b1 * 65536 + b2 * 256) / 85 / 85 =
                (b0 * 16777216 + b1 * 65536 + b2 * 256) / 7225 := by
              rw [Nat.div_div_eq_div_mul]
            simp only [Core.a85Encode, Core.a85Value, Nat.zero_mul, Nat.add_zero]
            rw [a85_step, a85_step, a85_step, a85_step]
            simp only [List.nil_append, List.cons_append]
            rw [a85_eod4]
            have hE : Core.a85Recompose [(b0 * 16777216 + b1 * 65536 + b2 * 256) / 52200625,
                (b0 * 16777216 + b1 * 65536 + b2 * 256) / 614125 % 85,
                (b0 * 16777216 + b1 * 65536 + b2 * 256) / 7225 % 85,
                (b0 * 16777216 + b1 * 65536 + b2 * 256) / 85 % 85, 84] =
                85 * ((b0 * 16777216 + b1 * 65536 + b2 * 256) / 85) + 84 := by
              simp only [Core.a85Recompose, List.foldl]
              omega
            rw [hE]
            rw [if_pos (show 85 * ((b0 * 16777216 + b1 * 65536 + b2 * 256) / 85) + 84 <
                4294967296 by omega)]
            have hq0 : (85 * ((b0 * 16777216 + b1 * 65536 + b2 * 256) / 85) + 84) /
                16777216 = b0 := by omega
            have hq1 : (85 * ((b0 * 16777216 + b1 * 65536 + b2 * 256) / 85) + 84) /
                65536 = b0 * 256 + b1 := by omega
            have hq2 : (85 * ((b0 * 16777216 + b1 * 65536 + b2 * 256) / 85) + 84) /
                256 = b0 * 65536 + b1 * 256 + b2 := by omega
            rw [hq0, hq1, hq2, Nat.mod_eq_of_lt h0,
              show (b0 * 256 + b1) % 256 = b1 by omega,
              show (b0 * 65536 + b1 * 256 + b2) % 256 = b2 by omega]
            all_goals try simp
            all_goals omega
          | cons b3 rest =>
            have h0 : b0 < 256 := hb b0 (by simp)
            have h1 : b1 < 256 := hb b1 (by simp)
            have h2 : b2 < 256 := hb b2 (by simp)
            have h3 : b3 < 256 := hb b3 (by simp)
            have hrest : rest.length ≤ n := by
              simp only [List.length_cons] at hlen
              omega
            have hbr : ∀ x ∈ rest, x < 256 := fun x hx => hb x (by simp [hx])
            have hby0 : (b0 * 16777216 + b1 * 65536 + b2 * 256 + b3) / 16777216 % 256 = b0 := by
              omega
            have hby1 : (b0 * 16777216 + b1 * 65536 + b2 * 256 + b3) / 65536 % 256 = b1 := by
              omega
            have hby2 : (b0 * 16777216 + b1 * 65536 + b2 * 256 + b3) / 256 % 256 = b2 := by
              omega
            have hby3 : (b0 * 16777216 + b1 * 65536 + b2 * 256 + b3) % 256 = b3 := by
              omega
            have hbytes : Core.a85GroupBytes (b0 * 16777216 + b1 * 65536 + b2 * 256 + b3) =
                [b0, b1, b2, b3] := by
              simp only [Core.a85GroupBytes, hby0, hby1, hby2, hby3]
            have g1 : (b0 * 16777216 + b1 * 65536 + b2 * 256 + b3) / 614125 / 85 =
                (b0 * 16777216 + b1 * 65536 + b2 * 256 + b3) / 52200625 := by
              rw [Nat.div_div_eq_div_mul]
            have g2 : (b0 * 16777216 + b1 * 65536 + b2 * 256 + b3) / 7225 / 85 =
                (b0 * 16777216 + b1 * 65536 + b2 * 256 + b3) / 614125 := by
              rw [Nat.div_div_eq_div_mul]
            have g3 : (b0 * 16777216 + b1 * 65536 + b2 * 256 + b3) / 85 / 85 =
                (b0 * 16777216 + b1 * 65536 + b2 * 256 + b3) / 7225 := by
              rw [Nat.div_div_eq_div_mul]
            simp only [Core.a85Encode, Core.a85Group, Core.a85Value, List.cons_append,
              List.nil_append]
            rw [a85_step, a85_step, a85_step, a85_step]
            simp only [List.nil_append, List.cons_append]
            rw [a85_step5]
            have hE : Core.a85Recompose [(b0 * 16777216 + b1 * 65536 + b2 * 256 + b3) / 52200625,
                (b0 * 16777216 + b1 * 65536 + b2 * 256 + b3) / 614125 % 85,
                (b0 * 16777216 + b1 * 65536 + b2 * 256 + b3) / 7225 % 85,
                (b0 * 16777216 + b1 * 65536 + b2 * 256 + b3) / 85 % 85,
                (b0 * 16777216 + b1 * 65536 + b2 * 256 + b3) % 85] =
                b0 * 16777216 + b1 * 65536 + b2 * 256 + b3 := by
              simp only [Core.a85Recompose, List.foldl]
              omega
            rw [hE]
            rw [if_pos (show b0 * 16777216 + b1 * 65536 + b2 * 256 + b3 < 4294967296 by omega)]
            rw [ih rest hrest hbr]
            show Except.ok (Core.a85GroupBytes (b0 * 16777216 + b1 * 65536 + b2 * 256 + b3)
              ++ rest) = Except.ok (b0 :: b1 :: b2 :: b3 :: rest)
            rw [hbytes]
            rfl
            all_goals try simp
            all_goals omega

/-- Auxiliary: the ASCII-85 filter round-trip on well-formed byte buffers. -/
theorem a85_roundtrip (bs : List Nat) (h : validBytes bs = true) :
    Core.a85Decode (Core.a85Encode bs) = .ok bs := by
  unfold Core.a85Decode
  exact a85_roundtrip_aux bs.length bs (le_refl _)
    (by simpa [validBytes, List.all_eq_true] using h)

/-- C7: for every valid single-stream-filter document — its stream's raw
bytes being the output of the filter's conformant encoder on a well-formed
buffer — decoding the raw bytes through the declared filter and then
re-encoding through the same filter is the identity, for the generic
compressor and both ASCII encodings. -/
theorem claim7_filter_roundtrip (f : Core.Filter) (raw : List Nat)
    (h : ∃ x, validBytes x = true ∧ Core.encodeFilter f x = raw) :
    ∃ d, Core.decodeFilter f raw = .ok d ∧ Core.encodeFilter f d = raw := by
  obtain ⟨x, hv, he⟩ := h
  subst he
  refine ⟨x, ?_, rfl⟩
  cases f with
  | flate =>
    simp only [Core.decodeFilter, Core.filterName, Core.streamDecodeOne, Core.encodeFilter,
      if_true, if_false, ite_true, ite_false]
    exact flate_roundtrip x
  | asciiHex =>
    simp only [Core.decodeFilter, Core.filterName, Core.streamDecodeOne, Core.encodeFilter,
      if_true, if_false, ite_true, ite_false]
    exact asciiHex_roundtrip x hv
  | ascii85 =>
    simp only [Core.decodeFilter, Core.filterName, Core.streamDecodeOne, Core.encodeFilter,
      if_true, if_false, ite_true, ite_false]
    exact a85_roundtrip x hv

/-- Witness for C7: a concrete ASCII-hex-encoded stream. -/
theorem claim7_filter_roundtrip_witness :
    ∃ d, Core.decodeFilter Core.Filter.asciiHex
        (Core.encodeFilter Core.Filter.asciiHex [0, 255, 17]) = .ok d ∧
      Core.encodeFilter Core.Filter.asciiHex d =
        Core.encodeFilter Core.Filter.asciiHex [0, 255, 17] :=
  claim7_filter_roundtrip Core.Filter.asciiHex _ ⟨[0, 255, 17], by decide, rfl⟩
